import Mathlib

/-!
Shallow embedding of the UFCStats scraper (scripts/scrape_ufcstats.py).

Texts extracted from HTML are modelled as lists of characters (type Str
below).  Python string primitives used by the scraper (strip, split,
lower, startswith, the in-operator, int()) are modelled by the py*
functions; each mirrors the CPython behaviour on the inputs the scraper
can produce (ASCII page text; int() is modelled as optional sign plus
digits with surrounding whitespace, without the underscore-separator
extension, which cannot occur in the scraped cells).

HTML pages are modelled as structures holding exactly the data the
scraper queries out of the DOM (header-cell texts, row cells, anchor
hrefs and anchor texts), so BeautifulSoup calls become field accesses.
Network fetches are modelled as a function argument returning
Option FightPage, none standing for a raised fetch error.  A Python
function that can raise to its caller is modelled with an Option result,
none standing for the exception.
-/

/-- Character-list strings, the carrier for all modelled page text. -/
abbrev Str := List Char

/-- Coerce a Lean string literal to the character-list model. -/
def chars (s : String) : Str := s.data

/-- Python str.startswith for the label tests in parse_fight_stats. -/
def pyStarts : Str → Str → Bool
  | [], _ => true
  | _ :: _, [] => false
  | p :: ps, c :: cs => p == c && pyStarts ps cs

/-- Python substring containment (the in-operator on str). -/
def pyIn (needle : Str) : Str → Bool
  | [] => pyStarts needle []
  | c :: cs => pyStarts needle (c :: cs) || pyIn needle cs

/-- Python str.lower, ASCII case folding as on the scraped pages. -/
def pyLower (s : Str) : Str := s.map Char.toLower

/-- Python str.strip with no argument: drop whitespace from both ends. -/
def pyStrip (s : Str) : Str :=
  List.rdropWhile Char.isWhitespace (s.dropWhile Char.isWhitespace)

/-- Python str.strip(c) for a single character argument. -/
def stripChar (c : Char) (s : Str) : Str :=
  List.rdropWhile (fun x => x == c) (s.dropWhile (fun x => x == c))

/-- Prepend a character onto the first part of a split result. -/
def pySplitCons (c : Char) : List Str → List Str
  | r :: rs => (c :: r) :: rs
  | [] => [[c]]

/-- Python str.split(sep) for a one-character separator; keeps empty parts. -/
def pySplit (sep : Char) : Str → List Str
  | [] => [[]]
  | c :: cs =>
    if c == sep then [] :: pySplit sep cs
    else pySplitCons c (pySplit sep cs)

/-- Numeric value of a digit string, most significant digit first. -/
def digitsToNat (s : Str) : Nat :=
  s.foldl (fun a c => a * 10 + (c.toNat - 48)) 0

/-- Python int(str): strip whitespace, optional single sign, digits.
ValueError is modelled as none. -/
def pyInt (s : Str) : Option Int :=
  match pyStrip s with
  | '+' :: rest =>
      if rest ≠ [] ∧ rest.all Char.isDigit then some (digitsToNat rest) else none
  | '-' :: rest =>
      if rest ≠ [] ∧ rest.all Char.isDigit then some (-(digitsToNat rest : Int)) else none
  | t => if t ≠ [] ∧ t.all Char.isDigit then some (digitsToNat t) else none

/-- Suffix of s after the final occurrence of sep: Python s.split(sep)[-1].
Returns the remainder after the first occurrence of sep, or none. -/
def afterFirst (sep : Str) : Str → Option Str
  | [] => if sep = [] then some [] else none
  | c :: cs =>
    if pyStarts sep (c :: cs) then some ((c :: cs).drop sep.length)
    else afterFirst sep cs

/-- Iterate afterFirst to reach the text after the last occurrence;
the fuel s.length suffices for every nonempty separator. -/
def lastSegAux (sep : Str) : Nat → Str → Str
  | 0, s => s
  | n + 1, s =>
    match afterFirst sep s with
    | none => s
    | some rest => lastSegAux sep n rest

/-- Python s.split(sep)[-1] for a nonempty separator. -/
def lastSeg (sep s : Str) : Str := lastSegAux sep s.length s

/-- The int(minutes) * 60 + int(seconds) computation of line 64: a
ValueError from either int() call is caught by the caller into None. -/
def pairSeconds (m sec : Str) : Option Int :=
  match pyInt m, pyInt sec with
  | some mv, some sv => some (mv * 60 + sv)
  | _, _ => none

/-- The tuple unpacking minutes, seconds = t.split(":") of line 63: any
part count other than two raises, which the caller turns into None. -/
def splitSeconds (parts : List Str) : Option Int :=
  match parts with
  | [m, sec] => pairSeconds m sec
  | _ => none

/-- Python time-string parser scrape_ufcstats.parse_time_to_seconds:
"3:45" becomes 225; "--" and "0:00" become 0; None/"" and malformed
text become None (exceptions from int() and tuple unpacking are caught). -/
def parse_time_to_seconds (time_str : Option Str) : Option Int :=
  match time_str with
  | none => none
  | some s =>
    if s = [] then none
    else
      let t := pyStrip s
      if t = chars ("--") ∨ t = chars ("0:00") then some 0
      else splitSeconds (pySplit ':' t)

/-- Matcher for the regex (\d+)\s*of\s*(\d+) anchored at the start of s.
The groups are maximal digit runs: backtracking a greedy \d+ or \s* can
never help because the character after them is required to be the
non-digit non-whitespace literal 'o', so maximal munch is exact. -/
def matchXYAt (s : Str) : Option (Nat × Nat) :=
  let d1 := s.takeWhile Char.isDigit
  if d1 = [] then none
  else
    match (s.dropWhile Char.isDigit).dropWhile Char.isWhitespace with
    | 'o' :: 'f' :: r3 =>
      let r4 := r3.dropWhile Char.isWhitespace
      let d2 := r4.takeWhile Char.isDigit
      if d2 = [] then none else some (digitsToNat d1, digitsToNat d2)
    | _ => none

/-- re.search of (\d+)\s*of\s*(\d+): leftmost match wins. -/
def matchXY : Str → Option (Nat × Nat)
  | [] => none
  | c :: cs =>
    match matchXYAt (c :: cs) with
    | some r => some r
    | none => matchXY cs

/-- Python scrape_ufcstats.parse_x_of_y: find "23 of 57" anywhere in the
text (with the lowercase literal of), else (None, None). -/
def parse_x_of_y (text : Option Str) : Option Nat × Option Nat :=
  match text with
  | none => (none, none)
  | some s =>
    if s = [] then (none, none)
    else
      match matchXY s with
      | none => (none, none)
      | some (a, b) => (some a, some b)

/-- Fight duration, lines 171-177 of parse_fight_stats: with a known
final round and a truthy, parseable final-round clock, the duration is
(round - 1) * 5 * 60 plus the clock seconds; otherwise None. -/
def computeDuration (round_ended : Option Nat) (time_ended : Option Str) : Option Int :=
  match round_ended, time_ended with
  | some r, some t =>
    if t = [] then none
    else
      match parse_time_to_seconds (some t) with
      | some s => some (((r : Int) - 1) * 5 * 60 + s)
      | none => none
  | _, _ => none

/-- One td.b-fight-details__table-col cell of the totals row: the hrefs
of its anchors and the texts of its p.b-fight-details__table-text
children, in document order. -/
structure StatCell where
  links : List Str
  ps : List Str
  deriving Repr, DecidableEq

/-- One tr of a totals-table body, as the list of its stat cells. -/
structure StatRow where
  cells : List StatCell
  deriving Repr, DecidableEq

/-- One table of a fight-detail page.  thead is some exactly when a
thead.b-fight-details__table-head child exists, carrying the raw texts
of its th/td cells; tbody likewise for b-fight-details__table-body. -/
structure PTable where
  thead : Option (List Str)
  tbody : Option (List StatRow)
  deriving Repr, DecidableEq

/-- A fight-detail page, as its tables in document order. -/
structure FightPage where
  tables : List PTable
  deriving Repr, DecidableEq

/-- The seven header substrings that identify the totals table. -/
def requiredLabs : List Str :=
  [chars ("fighter"), chars ("kd"), chars ("sig. str."), chars ("total str."),
   chars ("td"), chars ("sub. att"), chars ("ctrl")]

/-- Totals-table search, lines 100-114: the first table having both the
marked thead and tbody whose lowercased header texts cover all seven
required labels, returned together with those lowercased labels. -/
def findTotals : List PTable → Option (List Str × List StatRow)
  | [] => none
  | t :: ts =>
    match t.thead, t.tbody with
    | some hd, some rows =>
      let labels := hd.map pyLower
      if requiredLabs.all (fun req => labels.any (fun lab => pyIn req lab))
      then some (labels, rows)
      else findTotals ts
    | _, _ => findTotals ts

/-- The six stat categories mapped to column indices. -/
inductive StatCat
  | kd | sig | tot | td | sub | ctrl
  deriving Repr, DecidableEq

/-- The if/elif chain of lines 131-142 applied to one label: the first
category in chain order whose test the label passes, if any.  The
percent guard excludes accuracy columns from sig. str. and td. -/
def labelCat (lab : Str) : Option StatCat :=
  if pyStarts (chars ("kd")) lab then some .kd
  else if pyStarts (chars ("sig. str.")) lab && !(pyIn (chars ("%")) lab) then some .sig
  else if pyStarts (chars ("total str.")) lab then some .tot
  else if pyStarts (chars ("td")) lab && !(pyIn (chars ("%")) lab) then some .td
  else if pyStarts (chars ("sub. att")) lab then some .sub
  else if pyStarts (chars ("ctrl")) lab then some .ctrl
  else none

/-- The six mutable column-index variables of line 129. -/
structure ColIdx where
  kd : Option Nat
  sig : Option Nat
  tot : Option Nat
  td : Option Nat
  sub : Option Nat
  ctrl : Option Nat
  deriving Repr, DecidableEq

/-- One iteration of the for-loop of lines 130-142: assign the label's
index to the category its chain test selects. -/
def mapColsStep (acc : ColIdx) (n : Nat) (lab : Str) : ColIdx :=
  match labelCat lab with
  | some .kd => { acc with kd := some n }
  | some .sig => { acc with sig := some n }
  | some .tot => { acc with tot := some n }
  | some .td => { acc with td := some n }
  | some .sub => { acc with sub := some n }
  | some .ctrl => { acc with ctrl := some n }
  | none => acc

/-- The enumerate loop of lines 130-142 from counter n onward. -/
def mapColsFrom (n : Nat) (acc : ColIdx) : List Str → ColIdx
  | [] => acc
  | lab :: rest => mapColsFrom (n + 1) (mapColsStep acc n lab) rest

/-- Column-index assignment over the header labels, lines 129-142. -/
def mapCols (labels : List Str) : ColIdx :=
  mapColsFrom 0 ⟨none, none, none, none, none, none⟩ labels

/-- The None-in-tuple check of line 144 plus extraction of the six
indices when all are assigned. -/
def colsOk : ColIdx → Option (Nat × Nat × Nat × Nat × Nat × Nat)
  | ⟨some a, some b, some c, some d, some e, some f⟩ => some (a, b, c, d, e, f)
  | _ => none

/-- get_cell_text of lines 149-156: the fighter_index-th stat paragraph
of the col_idx-th cell, None when either index is out of range. -/
def get_cell_text (cells : List StatCell) (col fi : Nat) : Option Str :=
  match cells.get? col with
  | none => none
  | some cell => cell.ps.get? fi

/-- Fighter-id order inside the fighter cell, lines 159-166: ids are the
path segments after fighter-details/ of the cell's matching hrefs. -/
def fighterIdOrder (fcell : StatCell) : List Str :=
  (fcell.links.filter (fun l => pyIn (chars ("fighter-details")) l)).filterMap
    (fun l =>
      let href := pyStrip l
      if href = [] then none
      else some (stripChar '/' (lastSeg (chars ("fighter-details/")) href)))

/-- Build of index_for_id at line 168 (a dict, so a repeated id keeps its
last position) followed by .get: the last position of x, from counter n. -/
def lastIdxFrom (x : Str) : Nat → Option Nat → List Str → Option Nat
  | _, acc, [] => acc
  | n, acc, y :: ys => lastIdxFrom x (n + 1) (if y = x then some n else acc) ys

/-- index_for_id.get(x) of lines 168 and 181. -/
def lastIdx (l : List Str) (x : Str) : Option Nat := lastIdxFrom x 0 none l

/-- One fighter_stats record, the dict appended at lines 202-218. -/
structure StatRecord where
  fight_id : Str
  fighter_id : Str
  is_winner : Option Bool
  knockdowns : Nat
  sig_strikes_landed : Option Nat
  sig_strikes_attempted : Option Nat
  total_strikes_landed : Option Nat
  total_strikes_attempted : Option Nat
  td_landed : Option Nat
  td_attempts : Option Nat
  sub_attempts : Nat
  control_time_seconds : Option Int
  time_fought_seconds : Option Int
  deriving Repr, DecidableEq

/-- The int(t) if t and t.isdigit() else 0 coercion of lines 193 and 197. -/
def intOrZero (t : Option Str) : Nat :=
  match t with
  | some s => if s ≠ [] ∧ s.all Char.isDigit then digitsToNat s else 0
  | none => 0

/-- The record built for one fighter in the loop body, lines 186-218. -/
def mkStatRecord (fight_id fid : Str) (winner_id : Option Str) (dur : Option Int)
    (cells : List StatCell) (kdI sigI totI tdI subI ctrlI idx : Nat) : StatRecord :=
  let kd_text := get_cell_text cells kdI idx
  let sig_text := get_cell_text cells sigI idx
  let tot_text := get_cell_text cells totI idx
  let td_text := get_cell_text cells tdI idx
  let sub_text := get_cell_text cells subI idx
  let ctrl_text := get_cell_text cells ctrlI idx
  let sig_p := parse_x_of_y sig_text
  let tot_p := parse_x_of_y tot_text
  let td_p := parse_x_of_y td_text
  { fight_id := fight_id
    fighter_id := fid
    is_winner := winner_id.map (fun w => fid == w)
    knockdowns := intOrZero kd_text
    sig_strikes_landed := sig_p.1
    sig_strikes_attempted := sig_p.2
    total_strikes_landed := tot_p.1
    total_strikes_attempted := tot_p.2
    td_landed := td_p.1
    td_attempts := td_p.2
    sub_attempts := intOrZero sub_text
    control_time_seconds :=
      match ctrl_text with
      | some s => if s ≠ [] then parse_time_to_seconds (some s) else none
      | none => none
    time_fought_seconds := dur }

/-- scrape_ufcstats.parse_fight_stats on an already-fetched page.  Result
some rs is a normal return of the rows list; none is the IndexError
raised by cells[0] when the totals row has no stat cells (caught by the
caller parse_event).  A missing totals table, a missing body row or an
unmapped column returns some [] (lines 116-123 and 144-146); a
participant id absent from the fighter cell is skipped (line 184). -/
def parse_fight_stats (pg : FightPage) (fight_id f1_id f2_id : Str)
    (winner_id : Option Str) (round_ended : Option Nat) (time_ended : Option Str) :
    Option (List StatRecord) :=
  match findTotals pg.tables with
  | none => some []
  | some (labels, rows) =>
    match rows.head? with
    | none => some []
    | some row =>
      let cells := row.cells
      match colsOk (mapCols labels) with
      | none => some []
      | some (kdI, sigI, totI, tdI, subI, ctrlI) =>
        match cells.get? 0 with
        | none => none
        | some fcell =>
          let idOrder := fighterIdOrder fcell
          let dur := computeDuration round_ended time_ended
          some ([f1_id, f2_id].filterMap (fun fid =>
            (lastIdx idOrder fid).map (fun idx =>
              mkStatRecord fight_id fid winner_id dur cells kdI sigI totI tdI subI ctrlI idx)))

/-- Python split()[0]: the first whitespace-delimited token, none when
the text has no non-whitespace character.  get_text(strip=True) can only
produce empty text or text containing a non-whitespace character, so the
IndexError branch of split()[0] on truthy all-whitespace text is
unreachable on scraped cells and is modelled as none. -/
def firstTok (s : Str) : Option Str :=
  match s.dropWhile Char.isWhitespace with
  | [] => none
  | c :: cs => some ((c :: cs).takeWhile (fun x => !x.isWhitespace))

/-- One tr of the event fight-list table: the stripped texts of its td
cells, and the (href, stripped text) of each of its anchors, in document
order.  Anchor hrefs are modelled already resolved to absolute URLs, as
urljoin leaves the ufcstats detail links' path segments intact. -/
structure EventRow where
  tds : List Str
  links : List (Str × Str)
  deriving Repr, DecidableEq

/-- The fight-list table of an event page: its tbody rows when the tbody
exists. -/
structure EventTable where
  body : Option (List EventRow)
  deriving Repr, DecidableEq

/-- An event-detail page: the title span text if present, the texts of
the li.b-list__box-list-item entries, and the first table whose class
matches b-fight-details__table, if any. -/
structure EventPage where
  title : Option Str
  listItems : List Str
  table : Option EventTable
  deriving Repr, DecidableEq

/-- One fights-table record, the dict appended at lines 317-332. -/
structure FightRecord where
  fight_id : Str
  event_name : Str
  event_date : Str
  weight_class : Option Str
  fighter1_id : Str
  fighter2_id : Str
  winner_id : Option Str
  method : Option Str
  round_ended : Option Nat
  time_ended : Option Str
  fighter1_closing_odds : Option Int
  fighter2_closing_odds : Option Int
  deriving Repr, DecidableEq

/-- Fighter id derived from a fighter-details href, lines 294-297: strip
the href, take the path segment after fighter-details/, trim slashes. -/
def linkFid (href : Str) : Str :=
  stripChar '/' (lastSeg (chars ("fighter-details/")) (pyStrip href))

/-- Everything one accepted fight row contributes, lines 282-332: the
fight URL (for the per-fight stats fetch), both fighter identities, and
the assembled FightRecord. -/
structure RowData where
  url : Str
  f1_id : Str
  f1_name : Str
  f2_id : Str
  f2_name : Str
  fr : FightRecord
  deriving Repr, DecidableEq

/-- One iteration of the fight-row loop, lines 271-332, up to the stats
call: none models the continue branches (no td cells at line 273, no
fight-details link at line 278, a fighter-details link count other than
two at line 287); some carries the assembled row data. -/
def rowParse (event_name event_date : Str) (rw : EventRow) : Option RowData :=
  if rw.tds = [] then none
  else
    match rw.links.find? (fun l => pyIn (chars ("fight-details")) l.1) with
    | none => none
    | some fl =>
      let fight_url := pyStrip fl.1
      let fight_id := stripChar '/' (lastSeg (chars ("fight-details/")) fight_url)
      match rw.links.filter (fun l => pyIn (chars ("fighter-details")) l.1) with
      | [l1, l2] =>
        let f1_id := linkFid l1.1
        let f2_id := linkFid l2.1
        let n := rw.tds.length
        let weight_class := if 4 ≤ n then rw.tds.get? (n - 4) else none
        let method :=
          match (if 3 ≤ n then rw.tds.get? (n - 3) else none) with
          | some mt => if mt ≠ [] then firstTok mt else none
          | none => none
        let round_text := if 2 ≤ n then rw.tds.get? (n - 2) else none
        let time_ended := if 1 ≤ n then rw.tds.get? (n - 1) else none
        let round_ended :=
          match round_text with
          | some rt => if rt ≠ [] ∧ rt.all Char.isDigit then some (digitsToNat rt) else none
          | none => none
        let wl_text := pyLower (rw.tds.getD 0 [])
        let winner_id := if pyIn (chars ("win")) wl_text then some f1_id else none
        some { url := fight_url,
               f1_id := f1_id,
               f1_name := l1.2,
               f2_id := f2_id,
               f2_name := l2.2,
               fr := { fight_id := fight_id,
                       event_name := event_name,
                       event_date := event_date,
                       weight_class := weight_class,
                       fighter1_id := f1_id,
                       fighter2_id := f2_id,
                       winner_id := winner_id,
                       method := method,
                       round_ended := round_ended,
                       time_ended := time_ended,
                       fighter1_closing_odds := none,
                       fighter2_closing_odds := none } }
      | _ => none

/-- The per-fight stats attempt of lines 334-346: a fetch error (none
from fetch) or an exception inside parse_fight_stats (its none result)
is caught and contributes no stats rows. -/
def rowStats (fetch : Str → Option FightPage) (rd : RowData) : List StatRecord :=
  match fetch rd.url with
  | none => []
  | some fpg =>
    (parse_fight_stats fpg rd.fr.fight_id rd.f1_id rd.f2_id
      rd.fr.winner_id rd.fr.round_ended rd.fr.time_ended).getD []

/-- Python dict insert-or-update keyed on fighter_id, lines 300-301: an
existing key keeps its position and takes the new value, a new key is
appended. -/
def upsert (m : List (Str × Str)) (k v : Str) : List (Str × Str) :=
  match m with
  | [] => [(k, v)]
  | (k0, v0) :: rest => if k0 = k then (k0, v) :: rest else (k0, v0) :: upsert rest k v

/-- The fight-row loop of lines 271-346 threading the three accumulators
(fighters dict, fights rows, stats rows). -/
def processRows (fetch : Str → Option FightPage) (en ed : Str) :
    List EventRow → List (Str × Str) → List FightRecord → List StatRecord →
    List (Str × Str) × List FightRecord × List StatRecord
  | [], fm, fs, ss => (fm, fs, ss)
  | rw :: rest, fm, fs, ss =>
    match rowParse en ed rw with
    | none => processRows fetch en ed rest fm fs ss
    | some rd =>
      processRows fetch en ed rest
        (upsert (upsert fm rd.f1_id rd.f1_name) rd.f2_id rd.f2_name)
        (fs ++ [rd.fr])
        (ss ++ rowStats fetch rd)

/-- Event name of lines 234-235: the title span text or the placeholder. -/
def eventName (pg : EventPage) : Str := pg.title.getD (chars ("Unknown Event"))

/-- Event date of lines 237-250.  The strptime("%B %d, %Y") call on the
text after Date: in the first matching list item is injected as the
parseDate argument and the current-date fallback as today, mirroring the
spec's injectable-clock requirement; dates are opaque tokens here since
no verified property inspects the date value. -/
def eventDateOf (parseDate : Str → Option Str) (today : Str) (pg : EventPage) : Str :=
  match pg.listItems.find? (fun t => pyIn (chars ("Date:")) t) with
  | none => today
  | some t => (parseDate (pyStrip (lastSeg (chars ("Date:")) t))).getD today

/-- The rows the fight-row loop iterates over: empty when the fights
table or its tbody is missing. -/
def eventRows (pg : EventPage) : List EventRow :=
  match pg.table with
  | none => []
  | some tb => tb.body.getD []

/-- scrape_ufcstats.parse_event on an already-fetched event page,
returning the (fighters, fights, stats) triple; the fighters collection
is the dict materialized as (fighter_id, name) pairs in insertion order.
A missing fights table or tbody yields three empty collections
(lines 260-268). -/
def parse_event (fetch : Str → Option FightPage) (parseDate : Str → Option Str)
    (today : Str) (pg : EventPage) :
    List (Str × Str) × List FightRecord × List StatRecord :=
  match pg.table with
  | none => ([], [], [])
  | some tb =>
    match tb.body with
    | none => ([], [], [])
    | some rows =>
      processRows fetch (eventName pg) (eventDateOf parseDate today pg) rows [] [] []

/-- Association-list lookup, matching Python dict access by key. -/
def alookup (m : List (Str × Str)) (k : Str) : Option Str :=
  match m with
  | [] => none
  | (k0, v0) :: rest => if k0 = k then some v0 else alookup rest k

/-- Specification-side reading of most recently observed name: the name
attached to the last occurrence of fid among the accepted rows, where
within one row the second fighter link is observed after the first. -/
def lastNameObs : List RowData → Str → Option Str
  | [], _ => none
  | rd :: rest, fid =>
    match lastNameObs rest fid with
    | some n => some n
    | none =>
      if rd.f2_id = fid then some rd.f2_name
      else if rd.f1_id = fid then some rd.f1_name
      else none

/-- Specification-side column assignment for the amended C3: the index of
the last label whose chain test selects category c, counting from n. -/
def lastCatIdxFrom (c : StatCat) : Nat → Option Nat → List Str → Option Nat
  | _, acc, [] => acc
  | n, acc, lab :: rest =>
    lastCatIdxFrom c (n + 1) (if labelCat lab = some c then some n else acc) rest

/-- Index of the last label assigned to category c. -/
def lastCatIdx (c : StatCat) (labels : List Str) : Option Nat :=
  lastCatIdxFrom c 0 none labels

/-- Sample totals-table header texts mirroring a real fight page. -/
def c1Labels : List Str :=
  [chars ("Fighter"), chars ("KD"), chars ("Sig. str."), chars ("Sig. str. %"),
   chars ("Total str."), chars ("Td"), chars ("Td %"), chars ("Sub. att"),
   chars ("Rev."), chars ("Ctrl")]

/-- Sample fighter cell: both participants' profile links. -/
def c1FCell : StatCell :=
  { links := [chars ("http://ufcstats.com/fighter-details/AAA"),
              chars ("http://ufcstats.com/fighter-details/BBB")],
    ps := [chars ("Alpha"), chars ("Beta")] }

/-- Sample totals row aligned with c1Labels. -/
def c1Row : StatRow :=
  { cells :=
    [ c1FCell,
      { links := [], ps := [chars ("1"), chars ("0")] },
      { links := [], ps := [chars ("23 of 57"), chars ("10 of 30")] },
      { links := [], ps := [chars ("40%"), chars ("33%")] },
      { links := [], ps := [chars ("50 of 90"), chars ("20 of 44")] },
      { links := [], ps := [chars ("2 of 5"), chars ("0 of 1")] },
      { links := [], ps := [chars ("40%"), chars ("0%")] },
      { links := [], ps := [chars ("1"), chars ("0")] },
      { links := [], ps := [chars ("0"), chars ("0")] },
      { links := [], ps := [chars ("2:10"), chars ("0:45")] } ] }

/-- Sample fully-parseable fight-detail page. -/
def c1Page : FightPage := { tables := [{ thead := some c1Labels, tbody := some [c1Row] }] }

/-- Fight-detail page whose totals header lacks the required ctrl label,
so the totals-table search fails. -/
def c2Labels : List Str :=
  [chars ("Fighter"), chars ("KD"), chars ("Sig. str."), chars ("Total str."),
   chars ("Td"), chars ("Sub. att")]

/-- The page assembled from c2Labels, with an empty body row. -/
def c2FightPage : FightPage :=
  { tables := [{ thead := some c2Labels, tbody := some [{ cells := [] }] }] }

/-- Event row pointing at the header-deficient fight page. -/
def c2EventRow : EventRow :=
  { tds := [chars ("win"), chars ("Lightweight"), chars ("KO/TKO"), chars ("3"), chars ("2:10")],
    links := [ (chars ("http://ufcstats.com/fight-details/F2x/"), chars ("view")),
               (chars ("http://ufcstats.com/fighter-details/AAA"), chars ("Alpha One")),
               (chars ("http://ufcstats.com/fighter-details/BBB"), chars ("Beta Two")) ] }

/-- Event page holding only c2EventRow. -/
def c2Page : EventPage :=
  { title := some (chars ("EV")), listItems := [], table := some { body := some [c2EventRow] } }

/-- Fetch stub serving the header-deficient fight page for every URL. -/
def c2Fetch : Str → Option FightPage := fun _ => some c2FightPage

/-- The row data parse_event derives from c2EventRow. -/
def c2Rd : RowData :=
  (rowParse (eventName c2Page) (eventDateOf (fun _ => none) (chars ("D")) c2Page) c2EventRow).getD
    { url := [], f1_id := [], f1_name := [], f2_id := [], f2_name := [],
      fr := { fight_id := [], event_name := [], event_date := [], weight_class := none,
              fighter1_id := [], fighter2_id := [], winner_id := none, method := none,
              round_ended := none, time_ended := none,
              fighter1_closing_odds := none, fighter2_closing_odds := none } }

/-- Event row whose win/loss cell carries no win marker. -/
def c4Row : EventRow :=
  { tds := [chars ("nc"), chars ("Welterweight"), chars ("Overturned"), chars ("3"), chars ("5:00")],
    links := [ (chars ("http://ufcstats.com/fight-details/F4/"), chars ("view")),
               (chars ("http://ufcstats.com/fighter-details/CCC"), chars ("Gamma")),
               (chars ("http://ufcstats.com/fighter-details/DDD"), chars ("Delta")) ] }

/-- The row data parse_event derives from c4Row. -/
def c4Rd : RowData :=
  (rowParse (chars ("E")) (chars ("D")) c4Row).getD
    { url := [], f1_id := [], f1_name := [], f2_id := [], f2_name := [],
      fr := { fight_id := [], event_name := [], event_date := [], weight_class := none,
              fighter1_id := [], fighter2_id := [], winner_id := none, method := none,
              round_ended := none, time_ended := none,
              fighter1_closing_odds := none, fighter2_closing_odds := none } }

/-- Event page whose single fight row carries the same fighter link
twice: both identity links resolve to the same fighter id. -/
def c5Page : EventPage :=
  { title := some (chars ("EV")), listItems := [],
    table := some { body := some (
      [ { tds := [chars ("win"), chars ("Lightweight"), chars ("KO"), chars ("1"), chars ("0:30")],
          links := [ (chars ("http://ufcstats.com/fight-details/F5/"), chars ("view")),
                     (chars ("http://ufcstats.com/fighter-details/AAA"), chars ("Alpha")),
                     (chars ("http://ufcstats.com/fighter-details/AAA"), chars ("Alpha")) ] } ]) } }

/-- Event row with two fighter links resolving to distinct ids. -/
def c5bRow : EventRow :=
  { tds := [chars ("win"), chars ("Lightweight"), chars ("KO"), chars ("1"), chars ("0:30")],
    links := [ (chars ("http://ufcstats.com/fight-details/F5b/"), chars ("view")),
               (chars ("http://ufcstats.com/fighter-details/AAA"), chars ("Alpha")),
               (chars ("http://ufcstats.com/fighter-details/BBB"), chars ("Beta")) ] }

/-- The row data parse_event derives from c5bRow. -/
def c5bRd : RowData :=
  (rowParse (chars ("E")) (chars ("D")) c5bRow).getD
    { url := [], f1_id := [], f1_name := [], f2_id := [], f2_name := [],
      fr := { fight_id := [], event_name := [], event_date := [], weight_class := none,
              fighter1_id := [], fighter2_id := [], winner_id := none, method := none,
              round_ended := none, time_ended := none,
              fighter1_closing_odds := none, fighter2_closing_odds := none } }

theorem ws_not_digit {c : Char} (h : c.isWhitespace = true) : c.isDigit = false := by
  have h4 : ((c = ' ' ∨ c = '\t') ∨ c = '\r') ∨ c = '\n' := by
    simpa [Char.isWhitespace] using h
  rcases h4 with ((h1 | h1) | h1) | h1 <;> subst h1 <;> decide

theorem digit_not_ws {c : Char} (h : c.isDigit = true) : c.isWhitespace = false := by
  cases hw : c.isWhitespace
  · rfl
  · rw [ws_not_digit hw] at h
    cases h

theorem takeWhile_all_eq_self {p : Char → Bool} {l : Str} (h : ∀ x ∈ l, p x = true) :
    l.takeWhile p = l := by
  induction l with
  | nil => rfl
  | cons x xs ih =>
    rw [List.takeWhile_cons_of_pos (h x (by simp))]
    rw [ih (fun y hy => h y (by simp [hy]))]

theorem pyStrip_nil : pyStrip [] = [] := by
  simp [pyStrip, List.rdropWhile_nil]

theorem pyStrip_idem (s : Str) : pyStrip (pyStrip s) = pyStrip s := by
  unfold pyStrip
  have h1 : (s.dropWhile Char.isWhitespace).dropWhile Char.isWhitespace
      = s.dropWhile Char.isWhitespace :=
    List.dropWhile_idempotent Char.isWhitespace s
  obtain ⟨r, hr⟩ := List.rdropWhile_prefix Char.isWhitespace (s.dropWhile Char.isWhitespace)
  set u := List.rdropWhile Char.isWhitespace (s.dropWhile Char.isWhitespace) with hu
  have hdu : u.dropWhile Char.isWhitespace = u := by
    cases hcu : u with
    | nil => rfl
    | cons x xs =>
      have hx : Char.isWhitespace x = false := by
        cases hv : Char.isWhitespace x
        · rfl
        · exfalso
          rw [hcu, List.cons_append] at hr
          rw [← hr, List.dropWhile_cons_of_pos hv] at h1
          have hle := (List.dropWhile_suffix (l := xs ++ r) Char.isWhitespace).sublist.length_le
          rw [h1] at hle
          simp at hle
      rw [List.dropWhile_cons_of_neg (by simp [hx])]
  rw [hdu]
  conv_lhs => rw [hu]
  exact List.rdropWhile_idempotent Char.isWhitespace (s.dropWhile Char.isWhitespace)

theorem pyStrip_all_ws {s : Str} (h : ∀ x ∈ s, Char.isWhitespace x = true) :
    pyStrip s = [] := by
  unfold pyStrip
  rw [List.dropWhile_eq_nil_iff.2 (fun x hx => h x hx)]
  exact List.rdropWhile_nil Char.isWhitespace

theorem pyStrip_no_ws {s : Str} (h : ∀ x ∈ s, Char.isWhitespace x = false) :
    pyStrip s = s := by
  unfold pyStrip
  have h1 : s.dropWhile Char.isWhitespace = s := by
    cases s with
    | nil => rfl
    | cons x xs => exact List.dropWhile_cons_of_neg (by simp [h x (by simp)])
  rw [h1]
  unfold List.rdropWhile
  have h2 : s.reverse.dropWhile Char.isWhitespace = s.reverse := by
    cases hre : s.reverse with
    | nil => rfl
    | cons y ys =>
      have hy : y ∈ s := by
        have : y ∈ s.reverse := by rw [hre]; simp
        simpa using this
      exact List.dropWhile_cons_of_neg (by simp [h y hy])
  rw [h2, List.reverse_reverse]

theorem pySplit_no_sep {sep : Char} {s : Str} (h : sep ∉ s) : pySplit sep s = [s] := by
  induction s with
  | nil => rfl
  | cons c cs ih =>
    have hcn : ¬((c == sep) = true) := by
      simp only [beq_iff_eq]
      intro hcc
      exact h (by simp [hcc])
    have ih2 := ih (fun hm => h (List.mem_cons_of_mem c hm))
    simp only [pySplit]
    rw [if_neg hcn, ih2]
    rfl

theorem pySplit_sep_append {sep : Char} {a b : Str} (ha : sep ∉ a) :
    pySplit sep (a ++ sep :: b) = a :: pySplit sep b := by
  induction a with
  | nil => simp [pySplit]
  | cons c cs ih =>
    have hcn : ¬((c == sep) = true) := by
      simp only [beq_iff_eq]
      intro hcc
      exact ha (by simp [hcc])
    have ih2 := ih (fun hm => ha (List.mem_cons_of_mem c hm))
    rw [List.cons_append]
    simp only [pySplit]
    rw [if_neg hcn, ih2]
    rfl

theorem pyInt_digits {s : Str} (h1 : s ≠ []) (h2 : s.all Char.isDigit = true) :
    pyInt s = some ((digitsToNat s : Int)) := by
  have hnw : ∀ x ∈ s, Char.isWhitespace x = false := by
    intro x hx
    exact digit_not_ws (by simpa using List.all_eq_true.1 h2 x hx)
  have hs : pyStrip s = s := pyStrip_no_ws hnw
  unfold pyInt
  rw [hs]
  split
  · simp only [List.all_cons, Bool.and_eq_true] at h2
    exact absurd h2.1 (by decide)
  · simp only [List.all_cons, Bool.and_eq_true] at h2
    exact absurd h2.1 (by decide)
  · rw [if_pos ⟨h1, h2⟩]

/-- Unfolded form of parse_time_to_seconds on a present argument. -/
theorem parse_time_unfold (u : Str) :
    parse_time_to_seconds (some u) =
      if u = [] then none
      else
        if pyStrip u = chars ("--") ∨ pyStrip u = chars ("0:00") then some 0
        else splitSeconds (pySplit ':' (pyStrip u)) := rfl

/-- Claim C7: parse_time_to_seconds trims its input and returns 0 for
"--" and "0:00", minutes*60 + seconds for well-formed minutes:seconds
digit text (so "3:45" gives 225), and none on any parse failure (so
"garbage", "1:x" and "1:2:3" give none); the function is total, so no
exception reaches the caller.  The final clause settles every failing
input at once: for any non-sentinel text, if the colon split does not
unpack into exactly two parts, or it does and either part fails int()
(pyInt gives none), the result is none. -/
theorem claim_C7_parse_time :
    (∀ s : Str, parse_time_to_seconds (some s) = parse_time_to_seconds (some (pyStrip s)))
    ∧ parse_time_to_seconds (some (chars ("--"))) = some 0
    ∧ parse_time_to_seconds (some (chars ("0:00"))) = some 0
    ∧ (∀ a b : Str, a ≠ [] → b ≠ [] → a.all Char.isDigit = true → b.all Char.isDigit = true →
        parse_time_to_seconds (some (a ++ ':' :: b))
          = some ((digitsToNat a : Int) * 60 + (digitsToNat b : Int)))
    ∧ parse_time_to_seconds (some (chars ("3:45"))) = some 225
    ∧ parse_time_to_seconds (some (chars ("garbage"))) = none
    ∧ (∀ s : Str, (':' ∈ pyStrip s → False) → pyStrip s ≠ chars ("--") →
        parse_time_to_seconds (some s) = none)
    ∧ parse_time_to_seconds (some (chars ("1:x"))) = none
    ∧ parse_time_to_seconds (some (chars ("1:2:3"))) = none
    ∧ (∀ s : Str, pyStrip s ≠ chars ("--") → pyStrip s ≠ chars ("0:00") →
        (∀ m sec : Str, pySplit ':' (pyStrip s) = [m, sec] →
          pyInt m = none ∨ pyInt sec = none) →
        parse_time_to_seconds (some s) = none) := by
  refine ⟨?_, by decide, by decide, ?_, by decide, by decide, ?_, by decide, by decide, ?_⟩
  · intro s
    by_cases hs : s = []
    · subst hs
      rw [pyStrip_nil]
    · rw [parse_time_unfold s, parse_time_unfold (pyStrip s), pyStrip_idem, if_neg hs]
      by_cases ht : pyStrip s = []
      · rw [ht, if_pos rfl]
        decide
      · rw [if_neg ht]
  · intro a b ha hb hda hdb
    have hca : ':' ∉ a := by
      intro hc
      have := List.all_eq_true.1 hda _ hc
      exact absurd this (by decide)
    have hcb : ':' ∉ b := by
      intro hc
      have := List.all_eq_true.1 hdb _ hc
      exact absurd this (by decide)
    have hall : ∀ x ∈ a ++ ':' :: b, Char.isWhitespace x = false := by
      intro x hx
      rcases List.mem_append.1 hx with hxa | hxb
      · exact digit_not_ws (by simpa using List.all_eq_true.1 hda x hxa)
      · rcases List.mem_cons.1 hxb with rfl | hxb2
        · decide
        · exact digit_not_ws (by simpa using List.all_eq_true.1 hdb x hxb2)
    have hstrip : pyStrip (a ++ ':' :: b) = a ++ ':' :: b := pyStrip_no_ws hall
    have hne : a ++ ':' :: b ≠ [] := by simp
    rw [parse_time_unfold, if_neg hne, hstrip]
    have hsplit : pySplit ':' (a ++ ':' :: b) = [a, b] := by
      rw [pySplit_sep_append hca, pySplit_no_sep hcb]
    by_cases hsent : a ++ ':' :: b = chars ("0:00")
    · have hab : a = ['0'] ∧ b = ['0', '0'] := by
        cases a with
        | nil => simp [chars] at hsent
        | cons x xs =>
          rw [List.cons_append] at hsent
          have hsent3 : x :: (xs ++ ':' :: b) = ['0', ':', '0', '0'] := by
            simpa [chars] using hsent
          injection hsent3 with hx hrest
          subst hx
          cases xs with
          | nil =>
            simp only [List.nil_append] at hrest
            injection hrest with hcol hb2
            exact ⟨rfl, hb2⟩
          | cons y ys =>
            exfalso
            rw [List.cons_append] at hrest
            injection hrest with hy hrest2
            subst hy
            exact hca (by simp)
      obtain ⟨rfl, rfl⟩ := hab
      rw [if_pos (Or.inr hsent)]
      decide
    · have hsent2 : ¬(a ++ ':' :: b = chars ("--") ∨ a ++ ':' :: b = chars ("0:00")) := by
        rintro (h | h)
        · have : ':' ∈ chars ("--") := by
            rw [← h]
            simp
          exact absurd this (by decide)
        · exact hsent h
      rw [if_neg hsent2, hsplit]
      show pairSeconds a b = _
      unfold pairSeconds
      rw [pyInt_digits ha hda, pyInt_digits hb hdb]
  · intro s hnc hdd
    by_cases hs : s = []
    · subst hs
      rfl
    · rw [parse_time_unfold, if_neg hs]
      have hsent : ¬(pyStrip s = chars ("--") ∨ pyStrip s = chars ("0:00")) := by
        rintro (h | h)
        · exact hdd h
        · apply hnc
          rw [h]
          decide
      rw [if_neg hsent, pySplit_no_sep (fun hm => hnc hm)]
      rfl
  · intro s h1 h2 hfail
    by_cases hs : s = []
    · subst hs
      rfl
    · rw [parse_time_unfold, if_neg hs,
        if_neg (by rintro (h | h); exacts [h1 h, h2 h])]
      cases hsp : pySplit ':' (pyStrip s) with
      | nil => rfl
      | cons m rest =>
        cases rest with
        | nil => rfl
        | cons sec rest2 =>
          cases rest2 with
          | cons x xs => rfl
          | nil =>
            show pairSeconds m sec = none
            unfold pairSeconds
            rcases hfail m sec hsp with hm | hsec
            · rw [hm]
            · rw [hsec]
              cases hpm : pyInt m <;> rfl

/-- Witness for C7: the general minutes:seconds clause applied to the
concrete digit strings 3 and 45 yields 225 seconds. -/
theorem claim_C7_witness : parse_time_to_seconds (some (['3'] ++ ':' :: ['4', '5'])) = some 225 := by
  have h := claim_C7_parse_time.2.2.2.1 ['3'] ['4', '5'] (by decide) (by decide) (by decide) (by decide)
  rw [h]
  decide

/-- Claim C10: a missing, empty, or all-whitespace input yields none,
never 0.  The falsy-input check precedes trimming, so whitespace-only
text is truthy, trims to empty, misses both sentinels and fails in the
split branch. -/
theorem claim_C10_empty_inputs :
    parse_time_to_seconds none = none
    ∧ parse_time_to_seconds (some ([] : Str)) = none
    ∧ ∀ s : Str, s ≠ [] → s.all Char.isWhitespace = true →
        parse_time_to_seconds (some s) = none := by
  refine ⟨rfl, rfl, ?_⟩
  intro s hne hws
  have hstrip : pyStrip s = [] :=
    pyStrip_all_ws (fun x hx => by simpa using List.all_eq_true.1 hws x hx)
  rw [parse_time_unfold, if_neg hne, hstrip]
  decide

/-- Witness for C10 at a two-space input. -/
theorem claim_C10_witness : parse_time_to_seconds (some (chars ("  "))) = none :=
  claim_C10_empty_inputs.2.2 (chars ("  ")) (by decide) (by decide)

/-- Claim C6: the computed duration equals (round - 1) * 300 plus the
parsed final-round clock seconds whenever the round is present and the
clock text parses; it is absent whenever the round is absent, the clock
text is absent, or the clock text fails to parse. -/
theorem claim_C6_duration (r : Option Nat) (t : Option Str) :
    (∀ (rv : Nat) (tv : Str) (sec : Int), r = some rv → t = some tv →
        parse_time_to_seconds (some tv) = some sec →
        computeDuration r t = some (((rv : Int) - 1) * 300 + sec))
    ∧ ((r = none ∨ t = none ∨ ∃ tv, t = some tv ∧ parse_time_to_seconds (some tv) = none) →
        computeDuration r t = none) := by
  constructor
  · rintro rv tv sec rfl rfl hp
    have htv : tv ≠ [] := by
      rintro rfl
      rw [show parse_time_to_seconds (some ([] : Str)) = none from rfl] at hp
      exact Option.noConfusion hp
    simp only [computeDuration]
    rw [if_neg htv, hp]
    have hmul : ((rv : Int) - 1) * 5 * 60 = ((rv : Int) - 1) * 300 := by ring
    rw [hmul]
  · rintro (rfl | rfl | ⟨tv, rfl, hp⟩)
    · cases t <;> rfl
    · cases r <;> rfl
    · cases r with
      | none => rfl
      | some rv =>
        simp only [computeDuration]
        by_cases htv : tv = []
        · rw [if_pos htv]
        · rw [if_neg htv, hp]

/-- Witness for C6: round 3 with clock 2:10 gives 730 seconds. -/
theorem claim_C6_witness : computeDuration (some 3) (some (chars ("2:10"))) = some 730 := by
  have h := (claim_C6_duration (some 3) (some (chars ("2:10")))).1 3 (chars ("2:10")) 130
    rfl rfl (by decide)
  rw [h]
  decide

/-- Claim C8 counterexample: the pattern at line 77 is compiled without
re.IGNORECASE, so the uppercase variant "23 OF 57" yields (absent,
absent) where the claimed case-insensitive matching requires (23, 57). -/
theorem claim_C8_counterexample :
    parse_x_of_y (some (chars ("23 OF 57"))) = (none, none)
    ∧ parse_x_of_y (some (chars ("23 OF 57"))) ≠ ((some 23 : Option Nat), (some 57 : Option Nat)) := by
  constructor
  · decide
  · decide

/-- Claim C8 amended: parse_x_of_y matches a "landed of attempted"
pattern anywhere in the text with the lowercase literal of (the match is
case-sensitive) and arbitrary, possibly empty, whitespace around of,
returning the two integers; every input with no such pattern gives both
components absent. -/
theorem claim_C8_amended :
    parse_x_of_y (some (chars ("23 of 57"))) = (some 23, some 57)
    ∧ parse_x_of_y (some (chars ("no data"))) = (none, none)
    ∧ parse_x_of_y (some (chars ("x 23of57 y"))) = (some 23, some 57)
    ∧ parse_x_of_y none = (none, none)
    ∧ (∀ s : Str, matchXY s = none → parse_x_of_y (some s) = (none, none))
    ∧ (∀ (s : Str) (a b : Nat), matchXY s = some (a, b) →
        parse_x_of_y (some s) = (some a, some b))
    ∧ (∀ a w1 w2 b : Str, a ≠ [] → b ≠ [] →
        a.all Char.isDigit = true → b.all Char.isDigit = true →
        w1.all Char.isWhitespace = true → w2.all Char.isWhitespace = true →
        parse_x_of_y (some (a ++ w1 ++ 'o' :: 'f' :: (w2 ++ b)))
          = (some (digitsToNat a), some (digitsToNat b))) := by
  refine ⟨by decide, by decide, by decide, rfl, ?_, ?_, ?_⟩
  · intro s h
    cases s with
    | nil => rfl
    | cons c cs => simp [parse_x_of_y, h]
  · intro s a b h
    cases s with
    | nil => simp [matchXY] at h
    | cons c cs => simp [parse_x_of_y, h]
  · intro a w1 w2 b ha hb hda hdb hw1 hw2
    have hdam : ∀ x ∈ a, Char.isDigit x = true :=
      fun x hx => by simpa using List.all_eq_true.1 hda x hx
    have hdbm : ∀ x ∈ b, Char.isDigit x = true :=
      fun x hx => by simpa using List.all_eq_true.1 hdb x hx
    have hw1m : ∀ x ∈ w1, Char.isWhitespace x = true :=
      fun x hx => by simpa using List.all_eq_true.1 hw1 x hx
    have hw2m : ∀ x ∈ w2, Char.isWhitespace x = true :=
      fun x hx => by simpa using List.all_eq_true.1 hw2 x hx
    have h2 : (w1 ++ 'o' :: 'f' :: (w2 ++ b)).takeWhile Char.isDigit = [] := by
      cases hw1c : w1 with
      | nil => rw [List.nil_append]; exact List.takeWhile_cons_of_neg (by decide)
      | cons wc wcs =>
        rw [List.cons_append]
        exact List.takeWhile_cons_of_neg
          (by simp [ws_not_digit (hw1m wc (by rw [hw1c]; simp))])
    have h3 : (a ++ (w1 ++ 'o' :: 'f' :: (w2 ++ b))).dropWhile Char.isDigit
        = w1 ++ 'o' :: 'f' :: (w2 ++ b) := by
      rw [List.dropWhile_append_of_pos hdam]
      cases hw1c : w1 with
      | nil => rw [List.nil_append]; exact List.dropWhile_cons_of_neg (by decide)
      | cons wc wcs =>
        rw [List.cons_append]
        exact List.dropWhile_cons_of_neg
          (by simp [ws_not_digit (hw1m wc (by rw [hw1c]; simp))])
    have h4 : (w1 ++ 'o' :: 'f' :: (w2 ++ b)).dropWhile Char.isWhitespace
        = 'o' :: 'f' :: (w2 ++ b) := by
      rw [List.dropWhile_append_of_pos hw1m]
      exact List.dropWhile_cons_of_neg (by decide)
    have h5 : (w2 ++ b).dropWhile Char.isWhitespace = b := by
      rw [List.dropWhile_append_of_pos hw2m]
      cases hbc : b with
      | nil => exact absurd hbc hb
      | cons b0 bs =>
        exact List.dropWhile_cons_of_neg
          (by simp [digit_not_ws (hdbm b0 (by rw [hbc]; simp))])
    have h6 : b.takeWhile Char.isDigit = b := takeWhile_all_eq_self hdbm
    have hd1 : (a ++ (w1 ++ 'o' :: 'f' :: (w2 ++ b))).takeWhile Char.isDigit = a := by
      rw [List.takeWhile_append_of_pos hdam, h2, List.append_nil]
    have hsc : ((a ++ (w1 ++ 'o' :: 'f' :: (w2 ++ b))).dropWhile
        Char.isDigit).dropWhile Char.isWhitespace = 'o' :: 'f' :: (w2 ++ b) := by
      rw [h3]
      exact h4
    have hAt : matchXYAt (a ++ (w1 ++ 'o' :: 'f' :: (w2 ++ b)))
        = some (digitsToNat a, digitsToNat b) := by
      simp only [matchXYAt]
      rw [hd1, if_neg ha, hsc]
      show (if ((w2 ++ b).dropWhile Char.isWhitespace).takeWhile Char.isDigit = []
            then none
            else some (digitsToNat a,
              digitsToNat (((w2 ++ b).dropWhile Char.isWhitespace).takeWhile Char.isDigit)))
          = some (digitsToNat a, digitsToNat b)
      rw [h5, h6, if_neg hb]
    obtain ⟨a0, as, rfl⟩ : ∃ a0 as, a = a0 :: as := by
      cases a with
      | nil => exact absurd rfl ha
      | cons x xs => exact ⟨x, xs, rfl⟩
    rw [List.cons_append] at hAt
    have hXY : matchXY (a0 :: (as ++ (w1 ++ 'o' :: 'f' :: (w2 ++ b))))
        = some (digitsToNat (a0 :: as), digitsToNat b) := by
      simp only [matchXY]
      rw [hAt]
    rw [List.append_assoc, List.cons_append]
    simp only [parse_x_of_y]
    rw [if_neg (by simp), hXY]

/-- Witness for the amended C8: the whitespace clause applied to 23, a
single space either side of of, and 57. -/
theorem claim_C8_witness :
    parse_x_of_y (some (chars ("23 of 57"))) = (some 23, some 57) := by
  have h := claim_C8_amended.2.2.2.2.2.2 ['2', '3'] [' '] [' '] ['5', '7']
    (by decide) (by decide) (by decide) (by decide) (by decide) (by decide)
  have he : chars ("23 of 57") = ['2', '3'] ++ [' '] ++ 'o' :: 'f' :: ([' '] ++ ['5', '7']) := by
    decide
  rw [he, h]
  decide

theorem mapColsStep_kd (acc : ColIdx) (n : Nat) (lab : Str) :
    (mapColsStep acc n lab).kd = if labelCat lab = some StatCat.kd then some n else acc.kd := by
  cases h : labelCat lab with
  | none => simp [mapColsStep, h]
  | some c => cases c <;> simp_all [mapColsStep]

theorem mapColsStep_sig (acc : ColIdx) (n : Nat) (lab : Str) :
    (mapColsStep acc n lab).sig = if labelCat lab = some StatCat.sig then some n else acc.sig := by
  cases h : labelCat lab with
  | none => simp [mapColsStep, h]
  | some c => cases c <;> simp_all [mapColsStep]

theorem mapColsStep_tot (acc : ColIdx) (n : Nat) (lab : Str) :
    (mapColsStep acc n lab).tot = if labelCat lab = some StatCat.tot then some n else acc.tot := by
  cases h : labelCat lab with
  | none => simp [mapColsStep, h]
  | some c => cases c <;> simp_all [mapColsStep]

theorem mapColsStep_td (acc : ColIdx) (n : Nat) (lab : Str) :
    (mapColsStep acc n lab).td = if labelCat lab = some StatCat.td then some n else acc.td := by
  cases h : labelCat lab with
  | none => simp [mapColsStep, h]
  | some c => cases c <;> simp_all [mapColsStep]

theorem mapColsStep_sub (acc : ColIdx) (n : Nat) (lab : Str) :
    (mapColsStep acc n lab).sub = if labelCat lab = some StatCat.sub then some n else acc.sub := by
  cases h : labelCat lab with
  | none => simp [mapColsStep, h]
  | some c => cases c <;> simp_all [mapColsStep]

theorem mapColsStep_ctrl (acc : ColIdx) (n : Nat) (lab : Str) :
    (mapColsStep acc n lab).ctrl = if labelCat lab = some StatCat.ctrl then some n else acc.ctrl := by
  cases h : labelCat lab with
  | none => simp [mapColsStep, h]
  | some c => cases c <;> simp_all [mapColsStep]

theorem mapColsFrom_eq (labels : List Str) : ∀ (n : Nat) (acc : ColIdx),
    mapColsFrom n acc labels =
      ⟨lastCatIdxFrom .kd n acc.kd labels, lastCatIdxFrom .sig n acc.sig labels,
       lastCatIdxFrom .tot n acc.tot labels, lastCatIdxFrom .td n acc.td labels,
       lastCatIdxFrom .sub n acc.sub labels, lastCatIdxFrom .ctrl n acc.ctrl labels⟩ := by
  induction labels with
  | nil => intro n acc; rfl
  | cons lab rest ih =>
    intro n acc
    simp only [mapColsFrom, lastCatIdxFrom]
    rw [ih, mapColsStep_kd, mapColsStep_sig, mapColsStep_tot, mapColsStep_td,
      mapColsStep_sub, mapColsStep_ctrl]

theorem mapCols_eq (labels : List Str) :
    mapCols labels = ⟨lastCatIdx .kd labels, lastCatIdx .sig labels, lastCatIdx .tot labels,
      lastCatIdx .td labels, lastCatIdx .sub labels, lastCatIdx .ctrl labels⟩ :=
  mapColsFrom_eq labels 0 ⟨none, none, none, none, none, none⟩

theorem lastCatIdxFrom_some {c : StatCat} {labels : List Str} :
    ∀ {n : Nat} {acc : Option Nat} {i : Nat}, lastCatIdxFrom c n acc labels = some i →
      (∃ j lab, labels.get? j = some lab ∧ labelCat lab = some c ∧ n + j = i) ∨ acc = some i := by
  induction labels with
  | nil =>
    intro n acc i h
    exact Or.inr h
  | cons lab rest ih =>
    intro n acc i h
    rcases ih h with ⟨j, lab2, hj, hc2, hn⟩ | hacc
    · exact Or.inl ⟨j + 1, lab2, by simpa using hj, hc2, by omega⟩
    · by_cases hl : labelCat lab = some c
      · rw [if_pos hl] at hacc
        injection hacc with hi
        exact Or.inl ⟨0, lab, rfl, hl, by omega⟩
      · rw [if_neg hl] at hacc
        exact Or.inr hacc

theorem lastCatIdx_some {c : StatCat} {labels : List Str} {i : Nat}
    (h : lastCatIdx c labels = some i) :
    ∃ lab, labels.get? i = some lab ∧ labelCat lab = some c := by
  rcases lastCatIdxFrom_some (h : lastCatIdxFrom c 0 none labels = some i) with
    ⟨j, lab, hj, hc, hn⟩ | hacc
  · have hji : j = i := by omega
    subst hji
    exact ⟨lab, hj, hc⟩
  · exact Option.noConfusion hacc

theorem labelCat_sig_no_pct {lab : Str} (h : labelCat lab = some StatCat.sig) :
    pyIn (chars ("%")) lab = false := by
  unfold labelCat at h
  split_ifs at h with h1 h2 h3 h4 h5 h6 <;>
    simp_all [Bool.and_eq_true, Bool.not_eq_true']

theorem labelCat_td_no_pct {lab : Str} (h : labelCat lab = some StatCat.td) :
    pyIn (chars ("%")) lab = false := by
  unfold labelCat at h
  split_ifs at h with h1 h2 h3 h4 h5 h6 <;>
    simp_all [Bool.and_eq_true, Bool.not_eq_true']

/-- Claim C3 counterexample: in the header list [fighter, kd, kd x] the
kd matcher is satisfied by the labels at indices 1 and 2, yet the mapper
assigns kd the index 2, not the earliest matching index 1: the loop of
lines 130-142 overwrites on every later match. -/
theorem claim_C3_counterexample :
    pyStarts (chars ("kd")) (chars ("kd")) = true
    ∧ pyStarts (chars ("kd")) (chars ("kd x")) = true
    ∧ (mapCols [chars ("fighter"), chars ("kd"), chars ("kd x")]).kd = some 2
    ∧ (mapCols [chars ("fighter"), chars ("kd"), chars ("kd x")]).kd ≠ some 1 :=
  ⟨by decide, by decide, by decide, by decide⟩

/-- Claim C3 amended: column-index assignment is last-match-wins per
category.  The if/elif chain dispatches each label to at most one
category in the fixed priority order, and each category receives the
index of the last label dispatched to it; labels containing a % marker
are never assigned to the significant-strikes or takedown columns. -/
theorem claim_C3_amended (labels : List Str) :
    mapCols labels = ⟨lastCatIdx .kd labels, lastCatIdx .sig labels, lastCatIdx .tot labels,
      lastCatIdx .td labels, lastCatIdx .sub labels, lastCatIdx .ctrl labels⟩
    ∧ ∀ (i : Nat) (lab : Str), labels.get? i = some lab → pyIn (chars ("%")) lab = true →
        (mapCols labels).sig ≠ some i ∧ (mapCols labels).td ≠ some i := by
  refine ⟨mapCols_eq labels, ?_⟩
  intro i lab hget hpct
  have hs2 : (mapCols labels).sig = lastCatIdx .sig labels := by rw [mapCols_eq labels]
  have ht2 : (mapCols labels).td = lastCatIdx .td labels := by rw [mapCols_eq labels]
  constructor
  · intro hsig
    rw [hs2] at hsig
    obtain ⟨lab2, hj, hc⟩ := lastCatIdx_some hsig
    rw [hget] at hj
    injection hj with hl
    subst hl
    rw [labelCat_sig_no_pct hc] at hpct
    exact Bool.noConfusion hpct
  · intro htd
    rw [ht2] at htd
    obtain ⟨lab2, hj, hc⟩ := lastCatIdx_some htd
    rw [hget] at hj
    injection hj with hl
    subst hl
    rw [labelCat_td_no_pct hc] at hpct
    exact Bool.noConfusion hpct

/-- Witness for the amended C3 at the single percentage label td %. -/
theorem claim_C3_witness :
    (mapCols [chars ("td %")]).sig ≠ some 0 ∧ (mapCols [chars ("td %")]).td ≠ some 0 :=
  (claim_C3_amended [chars ("td %")]).2 0 (chars ("td %")) rfl (by decide)

/-- Claim C1: on a fight page where the totals table is located, a body
row exists, all six stat columns map, the fighter cell is present, and
both supplied participant ids resolve to positions in the fighter cell,
parse_fight_stats returns exactly two records, both carrying the given
fight id, one per participant in order, and both carrying the same
time_fought_seconds, computed by computeDuration from round_ended and
time_ended alone, independent of the table cells. -/
theorem claim_C1_two_records (pg : FightPage) (fight_id f1_id f2_id : Str)
    (winner_id : Option Str) (round_ended : Option Nat) (time_ended : Option Str)
    (labels : List Str) (rows : List StatRow) (row : StatRow) (fcell : StatCell)
    (kdI sigI totI tdI subI ctrlI i1 i2 : Nat)
    (h1 : findTotals pg.tables = some (labels, rows))
    (h2 : rows.head? = some row)
    (h3 : colsOk (mapCols labels) = some (kdI, sigI, totI, tdI, subI, ctrlI))
    (h4 : row.cells.get? 0 = some fcell)
    (h5 : lastIdx (fighterIdOrder fcell) f1_id = some i1)
    (h6 : lastIdx (fighterIdOrder fcell) f2_id = some i2) :
    (parse_fight_stats pg fight_id f1_id f2_id winner_id round_ended time_ended).map
        (fun rs => rs.map (fun s => (s.fight_id, s.fighter_id, s.time_fought_seconds)))
      = some [(fight_id, f1_id, computeDuration round_ended time_ended),
              (fight_id, f2_id, computeDuration round_ended time_ended)] := by
  simp only [parse_fight_stats, h1, h2, h3, h4, h5, h6, List.filterMap_cons,
    List.filterMap_nil, Option.map_some', List.map_cons, List.map_nil, mkStatRecord]

/-- Witness for C1 on the sample fully-parseable page. -/
theorem claim_C1_witness :
    (parse_fight_stats c1Page (chars ("FID")) (chars ("AAA")) (chars ("BBB"))
        (some (chars ("AAA"))) (some 3) (some (chars ("2:10")))).map
        (fun rs => rs.map (fun s => (s.fight_id, s.fighter_id, s.time_fought_seconds)))
      = some [(chars ("FID"), chars ("AAA"), computeDuration (some 3) (some (chars ("2:10")))),
              (chars ("FID"), chars ("BBB"), computeDuration (some 3) (some (chars ("2:10"))))] :=
  claim_C1_two_records c1Page (chars ("FID")) (chars ("AAA")) (chars ("BBB"))
    (some (chars ("AAA"))) (some 3) (some (chars ("2:10")))
    (c1Labels.map pyLower) [c1Row] c1Row c1FCell 1 2 4 5 7 9 0 1
    rfl rfl rfl rfl rfl rfl

theorem parse_fight_stats_winner_none {pg : FightPage} {fight_id f1_id f2_id : Str}
    {round_ended : Option Nat} {time_ended : Option Str} {rs : List StatRecord}
    (h : parse_fight_stats pg fight_id f1_id f2_id none round_ended time_ended = some rs) :
    ∀ s ∈ rs, s.is_winner = none := by
  intro s hs
  cases hft : findTotals pg.tables with
  | none =>
    simp only [parse_fight_stats, hft, Option.some.injEq] at h
    subst h
    simp at hs
  | some pr =>
    obtain ⟨labels, rows⟩ := pr
    cases hhd : rows.head? with
    | none =>
      simp only [parse_fight_stats, hft, hhd, Option.some.injEq] at h
      subst h
      simp at hs
    | some row =>
      cases hco : colsOk (mapCols labels) with
      | none =>
        simp only [parse_fight_stats, hft, hhd, hco, Option.some.injEq] at h
        subst h
        simp at hs
      | some cols =>
        obtain ⟨kdI, sigI, totI, tdI, subI, ctrlI⟩ := cols
        cases hc0 : row.cells.get? 0 with
        | none =>
          simp only [parse_fight_stats, hft, hhd, hco, hc0] at h
          exact Option.noConfusion h
        | some fcell =>
          simp only [parse_fight_stats, hft, hhd, hco, hc0, Option.some.injEq] at h
          subst h
          rcases List.mem_filterMap.1 hs with ⟨fid, hfid, hmk⟩
          rcases Option.map_eq_some'.1 hmk with ⟨idx, hidx, hmk2⟩
          subst hmk2
          simp [mkStatRecord]

theorem colsOk_none {cm : ColIdx}
    (h : cm.kd = none ∨ cm.sig = none ∨ cm.tot = none ∨ cm.td = none
      ∨ cm.sub = none ∨ cm.ctrl = none) :
    colsOk cm = none := by
  obtain ⟨k, s, t, d, sb, c⟩ := cm
  rcases h with h | h | h | h | h | h <;>
    cases k <;> cases s <;> cases t <;> cases d <;> cases sb <;> cases c <;>
      first
        | rfl
        | (exfalso; simp at h)

theorem processRows_fights (fetch : Str → Option FightPage) (en ed : Str) :
    ∀ (rows : List EventRow) (fm : List (Str × Str)) (fs : List FightRecord)
      (ss : List StatRecord),
      (processRows fetch en ed rows fm fs ss).2.1
        = fs ++ rows.filterMap (fun rw => (rowParse en ed rw).map RowData.fr) := by
  intro rows
  induction rows with
  | nil =>
    intro fm fs ss
    simp [processRows]
  | cons rw rest ih =>
    intro fm fs ss
    cases hrp : rowParse en ed rw with
    | none =>
      simp only [processRows, hrp]
      rw [ih]
      simp [List.filterMap_cons, hrp]
    | some rd =>
      simp only [processRows, hrp]
      rw [ih]
      simp [List.filterMap_cons, hrp]

/-- Claim C2: when the totals table cannot be located on the fight page,
or any of the six required stat categories fails to resolve to a column
index, parse_fight_stats returns zero stat records by a normal return
(not an exception), while the FightRecord assembled from the event row
still appears in the fights collection produced by parse_event. -/
theorem claim_C2_structural_mismatch (fetch : Str → Option FightPage)
    (parseDate : Str → Option Str) (today : Str) (pg : EventPage) (rw : EventRow)
    (rd : RowData) (fpg : FightPage)
    (hrow : rw ∈ eventRows pg)
    (hparse : rowParse (eventName pg) (eventDateOf parseDate today pg) rw = some rd)
    (hfail : findTotals fpg.tables = none
      ∨ ∃ labels rows, findTotals fpg.tables = some (labels, rows)
          ∧ ((mapCols labels).kd = none ∨ (mapCols labels).sig = none
            ∨ (mapCols labels).tot = none ∨ (mapCols labels).td = none
            ∨ (mapCols labels).sub = none ∨ (mapCols labels).ctrl = none)) :
    parse_fight_stats fpg rd.fr.fight_id rd.f1_id rd.f2_id rd.fr.winner_id
        rd.fr.round_ended rd.fr.time_ended = some []
    ∧ rd.fr ∈ (parse_event fetch parseDate today pg).2.1 := by
  constructor
  · rcases hfail with hnone | ⟨labels, rows, hsome, hcols⟩
    · simp [parse_fight_stats, hnone]
    · have hco : colsOk (mapCols labels) = none := colsOk_none hcols
      cases hhd : rows.head? with
      | none => simp [parse_fight_stats, hsome, hhd]
      | some row => simp [parse_fight_stats, hsome, hhd, hco]
  · cases htb : pg.table with
    | none =>
      simp only [eventRows, htb] at hrow
      simp at hrow
    | some tb =>
      cases hbd : tb.body with
      | none =>
        simp only [eventRows, htb, hbd] at hrow
        simp at hrow
      | some rows =>
        simp only [eventRows, htb, hbd, Option.getD_some] at hrow
        simp only [parse_event, htb, hbd]
        rw [processRows_fights]
        simp only [List.nil_append]
        exact List.mem_filterMap.2 ⟨rw, hrow, by rw [hparse]; rfl⟩

/-- Witness for C2: the sample event page whose single fight links to a
totals table missing the ctrl header. -/
theorem claim_C2_witness :
    parse_fight_stats c2FightPage c2Rd.fr.fight_id c2Rd.f1_id c2Rd.f2_id c2Rd.fr.winner_id
        c2Rd.fr.round_ended c2Rd.fr.time_ended = some []
    ∧ c2Rd.fr ∈ (parse_event c2Fetch (fun _ => none) (chars ("D")) c2Page).2.1 :=
  claim_C2_structural_mismatch c2Fetch (fun _ => none) (chars ("D")) c2Page c2EventRow c2Rd
    c2FightPage (by decide) (by rfl) (Or.inl (by rfl))

theorem rowParse_some {en ed : Str} {rw : EventRow} {rd : RowData}
    (h : rowParse en ed rw = some rd) :
    ∃ fl l1 l2,
      rw.tds ≠ []
      ∧ rw.links.find? (fun l => pyIn (chars ("fight-details")) l.1) = some fl
      ∧ rw.links.filter (fun l => pyIn (chars ("fighter-details")) l.1) = [l1, l2]
      ∧ rd.f1_id = linkFid l1.1 ∧ rd.f2_id = linkFid l2.1
      ∧ rd.fr.fighter1_id = linkFid l1.1 ∧ rd.fr.fighter2_id = linkFid l2.1
      ∧ rd.fr.winner_id
          = (if pyIn (chars ("win")) (pyLower (rw.tds.getD 0 []))
             then some (linkFid l1.1) else none) := by
  by_cases htds : rw.tds = []
  · simp [rowParse, htds] at h
  · cases hfl : rw.links.find? (fun l => pyIn (chars ("fight-details")) l.1) with
    | none => simp [rowParse, htds, hfl] at h
    | some fl =>
      cases hfilter : rw.links.filter (fun l => pyIn (chars ("fighter-details")) l.1) with
      | nil => simp [rowParse, htds, hfl, hfilter] at h
      | cons l1 rest =>
        cases rest with
        | nil => simp [rowParse, htds, hfl, hfilter] at h
        | cons l2 rest2 =>
          cases rest2 with
          | cons l3 rest3 => simp [rowParse, htds, hfl, hfilter] at h
          | nil =>
            simp only [rowParse, hfl, hfilter, if_neg htds, Option.some.injEq] at h
            subst h
            exact ⟨fl, l1, l2, htds, rfl, rfl, rfl, rfl, rfl, rfl, rfl⟩

/-- Claim C4: for an accepted fight row, a win marker in the lowercased
win/loss cell makes winner_id the first-listed participant; without the
marker winner_id is absent and every stat record produced for that row
carries an absent is_winner. -/
theorem claim_C4_winner (en ed : Str) (rw : EventRow) (rd : RowData)
    (h : rowParse en ed rw = some rd) :
    (pyIn (chars ("win")) (pyLower (rw.tds.getD 0 [])) = true →
      rd.fr.winner_id = some rd.fr.fighter1_id)
    ∧ (pyIn (chars ("win")) (pyLower (rw.tds.getD 0 [])) = false →
      rd.fr.winner_id = none
      ∧ ∀ (fetch : Str → Option FightPage) (s : StatRecord),
          s ∈ rowStats fetch rd → s.is_winner = none) := by
  obtain ⟨fl, l1, l2, htds, hfl, hfilter, hf1, hf2, hff1, hff2, hw⟩ := rowParse_some h
  constructor
  · intro hwin
    rw [hw, if_pos hwin, hff1]
  · intro hnwin
    have hwn : rd.fr.winner_id = none := by
      rw [hw, if_neg (by rw [hnwin]; simp)]
    refine ⟨hwn, ?_⟩
    intro fetch s hs
    cases hfe : fetch rd.url with
    | none => simp [rowStats, hfe] at hs
    | some fpg =>
      cases hps : parse_fight_stats fpg rd.fr.fight_id rd.f1_id rd.f2_id rd.fr.winner_id
          rd.fr.round_ended rd.fr.time_ended with
      | none => simp [rowStats, hfe, hps] at hs
      | some rs =>
        simp only [rowStats, hfe, hps, Option.getD_some] at hs
        rw [hwn] at hps
        exact parse_fight_stats_winner_none hps s hs

/-- Witness for C4: the sample no-contest row yields no winner. -/
theorem claim_C4_witness : c4Rd.fr.winner_id = none :=
  ((claim_C4_winner (chars ("E")) (chars ("D")) c4Row c4Rd (by rfl)).2 (by decide)).1

/-- Claim C5 counterexample: a fight row whose two fighter links carry
the same href is accepted, because the code checks only the link count,
so the emitted FightRecord has fighter1_id equal to fighter2_id,
refuting the claimed invariant. -/
theorem claim_C5_counterexample :
    (parse_event (fun _ => none) (fun _ => none) (chars ("D")) c5Page).2.1.map
        (fun r => (r.fighter1_id, r.fighter2_id))
      = [(chars ("AAA"), chars ("AAA"))] := by decide

/-- Claim C5 amended: parse_event does not enforce distinctness; the
emitted record's fighter1_id and fighter2_id are the ids derived from
the row's first and second fighter-identity links respectively, hence
distinct exactly when those two links resolve to distinct ids. -/
theorem claim_C5_amended (en ed : Str) (rw : EventRow) (rd : RowData)
    (l1 l2 : Str × Str)
    (h : rowParse en ed rw = some rd)
    (hl : rw.links.filter (fun l => pyIn (chars ("fighter-details")) l.1) = [l1, l2]) :
    rd.fr.fighter1_id = linkFid l1.1 ∧ rd.fr.fighter2_id = linkFid l2.1
    ∧ (linkFid l1.1 ≠ linkFid l2.1 → rd.fr.fighter1_id ≠ rd.fr.fighter2_id) := by
  obtain ⟨fl, l1b, l2b, htds, hfl, hfilter, hf1, hf2, hff1, hff2, hw⟩ := rowParse_some h
  rw [hl] at hfilter
  injection hfilter with e1 e2
  injection e2 with e2 e3
  subst e1
  subst e2
  exact ⟨hff1, hff2, fun hne => by rw [hff1, hff2]; exact hne⟩

/-- Witness for the amended C5 on a row with two distinct fighter ids. -/
theorem claim_C5_witness : c5bRd.fr.fighter1_id ≠ c5bRd.fr.fighter2_id := by
  have h := claim_C5_amended (chars ("E")) (chars ("D")) c5bRow c5bRd
    (chars ("http://ufcstats.com/fighter-details/AAA"), chars ("Alpha"))
    (chars ("http://ufcstats.com/fighter-details/BBB"), chars ("Beta"))
    (by rfl) (by rfl)
  exact h.2.2 (by decide)

theorem alookup_upsert (m : List (Str × Str)) (k v k2 : Str) :
    alookup (upsert m k v) k2 = if k = k2 then some v else alookup m k2 := by
  induction m with
  | nil => simp [upsert, alookup]
  | cons p rest ih =>
    obtain ⟨k0, v0⟩ := p
    by_cases h0 : k0 = k
    · subst h0
      simp only [upsert, if_pos rfl, alookup]
      split_ifs <;> rfl
    · simp only [upsert, if_neg h0, alookup, ih]
      split_ifs with h2 h3 <;>
        first
          | rfl
          | (exact absurd (h2.trans h3.symm) h0)

theorem upsert_keys (m : List (Str × Str)) (k v : Str) :
    (upsert m k v).map Prod.fst
      = if k ∈ m.map Prod.fst then m.map Prod.fst else m.map Prod.fst ++ [k] := by
  induction m with
  | nil => simp [upsert]
  | cons p rest ih =>
    obtain ⟨k0, v0⟩ := p
    by_cases h0 : k0 = k
    · subst h0
      simp [upsert]
    · simp only [upsert, if_neg h0, List.map_cons, ih]
      by_cases hk : k ∈ rest.map Prod.fst
      · rw [if_pos hk, if_pos (List.mem_cons_of_mem k0 hk)]
      · rw [if_neg hk, if_neg (by
          intro hmem
          rcases List.mem_cons.1 hmem with he | hm
          · exact h0 he.symm
          · exact hk hm)]
        simp

theorem upsert_nodup {m : List (Str × Str)} (k v : Str)
    (h : (m.map Prod.fst).Nodup) : ((upsert m k v).map Prod.fst).Nodup := by
  rw [upsert_keys]
  by_cases hk : k ∈ m.map Prod.fst
  · rw [if_pos hk]
    exact h
  · rw [if_neg hk]
    simp [List.nodup_append, h, hk]

theorem processRows_fighters (fetch : Str → Option FightPage) (en ed : Str) :
    ∀ (rows : List EventRow) (fm : List (Str × Str)) (fs : List FightRecord)
      (ss : List StatRecord) (fid : Str),
      alookup (processRows fetch en ed rows fm fs ss).1 fid
        = match lastNameObs (rows.filterMap (rowParse en ed)) fid with
          | some n => some n
          | none => alookup fm fid := by
  intro rows
  induction rows with
  | nil =>
    intro fm fs ss fid
    simp [processRows, lastNameObs]
  | cons rw rest ih =>
    intro fm fs ss fid
    cases hrp : rowParse en ed rw with
    | none =>
      simp only [processRows, hrp, List.filterMap_cons]
      exact ih fm fs ss fid
    | some rd =>
      simp only [processRows, hrp, List.filterMap_cons]
      rw [ih]
      simp only [lastNameObs]
      cases hln : lastNameObs (rest.filterMap (rowParse en ed)) fid with
      | some n => rfl
      | none =>
        rw [alookup_upsert, alookup_upsert]
        split_ifs <;> rfl

theorem processRows_nodup (fetch : Str → Option FightPage) (en ed : Str) :
    ∀ (rows : List EventRow) (fm : List (Str × Str)) (fs : List FightRecord)
      (ss : List StatRecord), (fm.map Prod.fst).Nodup →
      ((processRows fetch en ed rows fm fs ss).1.map Prod.fst).Nodup := by
  intro rows
  induction rows with
  | nil =>
    intro fm fs ss h
    simpa [processRows] using h
  | cons rw rest ih =>
    intro fm fs ss h
    cases hrp : rowParse en ed rw with
    | none =>
      simp only [processRows, hrp]
      exact ih fm fs ss h
    | some rd =>
      simp only [processRows, hrp]
      exact ih _ _ _ (upsert_nodup _ _ (upsert_nodup _ _ h))

/-- Claim C9: the fighters collection has at most one record per
fighter_id (its keys are nodup), and looking a fighter_id up in it gives
exactly the most recently observed name over the accepted rows, the
second link of a row counting as observed after the first.  In
particular an id seen in several rows keeps one record with the
last-seen name. -/
theorem claim_C9_dedup (fetch : Str → Option FightPage) (parseDate : Str → Option Str)
    (today : Str) (pg : EventPage) :
    (((parse_event fetch parseDate today pg).1.map Prod.fst).Nodup)
    ∧ ∀ fid : Str,
        alookup (parse_event fetch parseDate today pg).1 fid
          = lastNameObs ((eventRows pg).filterMap
              (rowParse (eventName pg) (eventDateOf parseDate today pg))) fid := by
  cases htb : pg.table with
  | none =>
    simp only [parse_event, htb, eventRows]
    exact ⟨by simp, fun fid => by simp [alookup, lastNameObs]⟩
  | some tb =>
    cases hbd : tb.body with
    | none =>
      simp only [parse_event, htb, hbd, eventRows]
      exact ⟨by simp, fun fid => by simp [alookup, lastNameObs]⟩
    | some rows =>
      simp only [parse_event, htb, hbd, eventRows, Option.getD_some]
      constructor
      · exact processRows_nodup fetch _ _ rows [] [] [] (by simp)
      · intro fid
        rw [processRows_fighters]
        cases hln : lastNameObs (rows.filterMap
            (rowParse (eventName pg) (eventDateOf parseDate today pg))) fid with
        | some n => rfl
        | none => rfl
